import Mathlib

/-!
Shallow embedding of the error-handling and bounded-concurrency core of the
FinancialMarketsMCP repository (forex integration), together with proofs of
the specification claims about it.

Embedded source files:
- `src/common/custom_exceptions.py` (the MCPError hierarchy)
- `src/common/exceptions.py` (`sanitize_message`, `handle_api_error`)
- `src/tools/forex/service.py` (`MassiveForexService._execute_bounded`,
  `_split_pair`, `_ensure_prefix`, `get_historical_quotes` parameter handling)
- `src/tools/forex/tool.py` (`_get_val`, the tool-level `try/except` wrapper)

Python strings are modelled as `List Char` (with `String` at the interface
where convenient); Python exceptions as an inductive `PyExc` covering every
exception class the embedded code distinguishes by `isinstance` or `except`
clauses; the asyncio semaphore discipline of `_execute_bounded` as a labelled
transition system over task phases.
-/

namespace FinMCP

/-! ## Python exception model

`PyExc` has one constructor per exception class that the embedded code
distinguishes: the custom MCPError hierarchy from
`src/common/custom_exceptions.py`, the `urllib3` / builtin classes caught in
`MassiveForexService._execute_bounded`, the `requests` classes tested in
`handle_api_error`, `RuntimeError` (raised by `_execute_bounded`'s generic
branch), and a catch-all `otherExc` for any other `Exception`.
Each carries the string `str(e)` would produce. -/

inductive PyExc where
  /-- builtin `TimeoutError` / `asyncio.TimeoutError` -/
  | timeoutError (msg : String)
  /-- `urllib3.exceptions.MaxRetryError` -/
  | maxRetryError (msg : String)
  /-- `urllib3.exceptions.HTTPError` -/
  | urllibHTTPError (msg : String)
  /-- `ProviderTimeoutError` (subclass of `ProviderConnectionError`) -/
  | providerTimeout (msg : String)
  /-- `ProviderConnectionError` (subclass of `MCPError`) -/
  | providerConnection (msg : String)
  /-- `DataNotFound` (subclass of `MCPError`) -/
  | dataNotFound (msg : String)
  /-- `RateLimitExceeded` (subclass of `MCPError`) -/
  | rateLimitExceeded (msg : String)
  /-- `InvalidInputError` (subclass of `MCPError`) -/
  | invalidInput (msg : String)
  /-- any other direct `MCPError` -/
  | mcpOther (msg : String)
  /-- `requests.exceptions.HTTPError`; `status` is
      `error.response.status_code if error.response else None` -/
  | requestsHTTPError (status : Option Nat) (msg : String)
  /-- `requests.exceptions.ConnectionError` -/
  | requestsConnectionError (msg : String)
  /-- `requests.exceptions.Timeout` -/
  | requestsTimeout (msg : String)
  /-- builtin `RuntimeError` -/
  | runtimeError (msg : String)
  /-- any other `Exception` -/
  | otherExc (msg : String)
deriving DecidableEq, Repr

/-- `str(e)`: the message carried by the exception. -/
def PyExc.pyStr : PyExc → String
  | .timeoutError m => m
  | .maxRetryError m => m
  | .urllibHTTPError m => m
  | .providerTimeout m => m
  | .providerConnection m => m
  | .dataNotFound m => m
  | .rateLimitExceeded m => m
  | .invalidInput m => m
  | .mcpOther m => m
  | .requestsHTTPError _ m => m
  | .requestsConnectionError m => m
  | .requestsTimeout m => m
  | .runtimeError m => m
  | .otherExc m => m

/-- `isinstance(e, MCPError)` for the hierarchy of
`src/common/custom_exceptions.py`: `ProviderConnectionError`,
`ProviderTimeoutError`, `DataNotFound`, `RateLimitExceeded`,
`InvalidInputError` and any other direct `MCPError` subclass. -/
def PyExc.isMCPError : PyExc → Bool
  | .providerTimeout _ => true
  | .providerConnection _ => true
  | .dataNotFound _ => true
  | .rateLimitExceeded _ => true
  | .invalidInput _ => true
  | .mcpOther _ => true
  | _ => false

/-! ## Python string primitives (on `List Char`) -/

/-- Python substring test `k in s` (on character lists). -/
def containsSub (s k : List Char) : Bool :=
  match s with
  | [] => k.isEmpty
  | _ :: rest => k.isPrefixOf s || containsSub rest k

/-- Python substring test `k in s` on `String`s. -/
def strContains (s k : String) : Bool :=
  containsSub s.data k.data

/-- Python `str.replace(old, new)` with explicit fuel (left-to-right,
non-overlapping). `pyReplace` below instantiates the fuel with the string
length, which suffices for any non-empty `old`. -/
def pyReplaceAux (old new : List Char) : Nat → List Char → List Char
  | _, [] => []
  | 0, s => s
  | fuel + 1, c :: rest =>
      if old.isPrefixOf (c :: rest) then
        new ++ pyReplaceAux old new fuel ((c :: rest).drop old.length)
      else
        c :: pyReplaceAux old new fuel rest

/-- Python `s.replace(old, new)` on character lists. -/
def pyReplace (s old new : List Char) : List Char :=
  pyReplaceAux old new s.length s

/-- Python whitespace for `str.strip()` (ASCII part). -/
def isPyWhitespace (c : Char) : Bool :=
  c = ' ' || c = '\t' || c = '\n' || c = '\r' || c = '\x0b' || c = '\x0c'

/-- Python `s.strip()` on character lists. -/
def pyStrip (s : List Char) : List Char :=
  ((s.dropWhile isPyWhitespace).reverse.dropWhile isPyWhitespace).reverse

/-- Python `s.upper()` (ASCII) on character lists. -/
def pyUpper (s : List Char) : List Char :=
  s.map Char.toUpper

/-- Python `s.lower()` (ASCII) on character lists. -/
def pyLower (s : List Char) : List Char :=
  s.map Char.toLower

/-- Python `s.split("-")`: split on every hyphen; always returns a
non-empty list of (possibly empty) parts. -/
def splitOnHyphen : List Char → List (List Char)
  | [] => [[]]
  | c :: rest =>
      if c = '-' then [] :: splitOnHyphen rest
      else
        match splitOnHyphen rest with
        | [] => [[c]]
        | g :: gs => (c :: g) :: gs

/-! ## `MassiveForexService._execute_bounded` — exception classification

`src/tools/forex/service.py` lines 35–65.  The body of the `async with` runs
`asyncio.wait_for(asyncio.to_thread(func, ...), timeout=...)`; what that
awaited call did is a `BodyResult`: it returned a value, the timeout elapsed
first, or `func` raised an exception.  The `except` chain then classifies the
failure. -/

/-- What the awaited upstream call did inside `_execute_bounded`. -/
inductive BodyResult (α : Type) where
  /-- `func` returned `v` before the timeout -/
  | returned (v : α)
  /-- the `asyncio.wait_for` timeout elapsed first (raises
      `asyncio.TimeoutError`, caught by the first `except`) -/
  | timedOut
  /-- `func` raised exception `e` -/
  | excRaised (e : PyExc)

/-- An exit of `_execute_bounded`: either the value returned by `func`,
or a raised exception. -/
inductive ExecOutcome (α : Type) where
  | success (v : α)
  | raised (e : PyExc)
deriving DecidableEq

/-- The `except` chain of `_execute_bounded` applied to an exception raised
out of the awaited call (service.py lines 46–65):
`except (asyncio.TimeoutError, TimeoutError)` → `ProviderTimeoutError`;
`except (MaxRetryError, UrllibHTTPError)` → `ProviderConnectionError`;
`except Exception` → substring tests on `str(e)` for "401", "429", "404",
else `RuntimeError(f"Provider Error: {error_str}")`. -/
def classifyExc (e : PyExc) : PyExc :=
  match e with
  | .timeoutError _ => .providerTimeout "External data provider timed out."
  | .maxRetryError _ => .providerConnection "Failed to connect to Forex Data Provider."
  | .urllibHTTPError _ => .providerConnection "Failed to connect to Forex Data Provider."
  | e =>
      let errorStr := e.pyStr
      if strContains errorStr "401" then
        .providerConnection "Internal Configuration Error (API Key)."
      else if strContains errorStr "429" then
        .rateLimitExceeded "Forex data rate limit reached."
      else if strContains errorStr "404" then
        .dataNotFound "Resource not found."
      else
        .runtimeError ("Provider Error: " ++ errorStr)

/-- The exit of `_execute_bounded` as a function of what the awaited call
did.  A timeout raises `asyncio.TimeoutError` from `asyncio.wait_for`, which
the same `except` chain catches. -/
def bodyOutcome {α : Type} : BodyResult α → ExecOutcome α
  | .returned v => .success v
  | .timedOut => .raised (classifyExc (.timeoutError "timeout"))
  | .excRaised e => .raised (classifyExc e)

/-! ## `sanitize_message` (src/common/exceptions.py lines 18–25)

`re.sub(r'\b[a-f0-9]{32,}\b', '[REDACTED]', message, flags=re.IGNORECASE)`:
a match is a maximal run of word characters that consists entirely of hex
digits and has length ≥ 32 (an interior position is never a word boundary,
so a match must cover a whole word-character run). -/

/-- regex word character `\w` (ASCII part). -/
def isWordChar (c : Char) : Bool :=
  c.isAlphanum || c = '_'

/-- hex digit for `[a-f0-9]` with `re.IGNORECASE`. -/
def isHexChar (c : Char) : Bool :=
  c.isDigit || ('a' ≤ c && c ≤ 'f') || ('A' ≤ c && c ≤ 'F')

/-- `re.sub(r'\b[a-f0-9]{32,}\b', '[REDACTED]', s, flags=re.IGNORECASE)`
on character lists, with fuel (instantiated with the string length). -/
def hexRedactAux : Nat → List Char → List Char
  | _, [] => []
  | 0, s => s
  | fuel + 1, c :: rest =>
      if isWordChar c then
        let run := (c :: rest).takeWhile isWordChar
        let rest2 := (c :: rest).dropWhile isWordChar
        (if 32 ≤ run.length && run.all isHexChar then
          "[REDACTED]".data
        else run) ++ hexRedactAux fuel rest2
      else c :: hexRedactAux fuel rest

/-- Hex-token redaction pass of `sanitize_message`. -/
def hexRedact (s : List Char) : List Char :=
  hexRedactAux s.length s

/-- `sanitize_message(message, api_key)` (src/common/exceptions.py):
if `api_key` is truthy and occurs in the message, replace all its
occurrences with `[REDACTED]`; then redact hex-looking tokens of length
≥ 32. -/
def sanitizeMessage (message : String) (apiKey : Option String) : String :=
  let m :=
    match apiKey with
    | some k =>
        if !k.isEmpty && strContains message k then
          String.mk (pyReplace message.data k.data "[REDACTED]".data)
        else message
    | none => message
  String.mk (hexRedact m.data)

/-! ## `handle_api_error` (src/common/exceptions.py lines 27–82)

The function computes `sanitized_message = sanitize_message(str(error),
api_key)` but uses it only in the log line; the returned strings are built
from `str(error)` directly (or are constants).  The `isinstance` chain is
reproduced case by case; note `ProviderTimeoutError` is tested before
`ProviderConnectionError`, matching the subclass relation. -/

def handleApiError (error : PyExc) (apiKey : Option String) : String :=
  -- `sanitized_message` is computed and used only for logging:
  -- let _ := sanitizeMessage error.pyStr apiKey
  match error with
  | .dataNotFound m => "Error: " ++ m
  | .rateLimitExceeded _ =>
      "Error: API rate limit exceeded. Please wait a moment before trying again."
  | .invalidInput m => "Error: Invalid Input - " ++ m
  | .providerTimeout _ => "Error: The data provider timed out. Please try again."
  | .providerConnection _ => "Error: Failed to connect to the external data provider."
  | .mcpOther m => "Error: " ++ m
  | .requestsHTTPError status _ =>
      match status with
      | some 401 => "Error: Invalid API credentials."
      | some 429 => "Error: Rate limit exceeded."
      | some 400 => "Error: Invalid request parameters."
      | some 404 => "Error: Resource not found."
      | some c =>
          if 500 ≤ c && c < 600 then "Error: External API internal error."
          else "Error: API request failed with status code " ++ toString c ++ "."
      | none => "Error: API request failed with status code None."
  | .requestsConnectionError _ => "Error: Unable to connect to API."
  | .requestsTimeout _ => "Error: Request timed out."
  | _ => "Error: An unexpected error occurred. Please try again."

/-- The tool-level wrapper pattern of `src/tools/forex/tool.py`: every tool
body runs under `try: ... except Exception as e: return
handle_api_error(e, settings.MASSIVE_API_KEY)`; the outcome of the body is
either a formatted string or a raised exception. -/
inductive ToolBody where
  | ok (s : String)
  | exc (e : PyExc)

/-- Result string a forex tool returns to the protocol layer. -/
def runTool (apiKey : Option String) : ToolBody → String
  | .ok s => s
  | .exc e => handleApiError e apiKey

/-- The special wrapper of `get_forex_historical_quotes`
(tool.py lines 288–291): a "timed out" substring match comes before the
generic translator. -/
def histQuotesErrorResult (e : PyExc) (apiKey : Option String) : String :=
  if strContains (String.mk (pyLower e.pyStr.data)) "timed out" then
    "Error: Request timed out. Try specifying a narrower date range."
  else handleApiError e apiKey

/-- `"Error:"` is a prefix of `s` (character-wise). -/
def startsWithError (s : String) : Bool :=
  "Error:".data.isPrefixOf s.data

/-! ## Ticker helpers (src/tools/forex/service.py lines 67–90) -/

/-- `_ensure_prefix`: `ticker.strip().upper().replace("X:", "").replace("C:", "")`
then prepend `"C:"`. -/
def ensurePrefix (ticker : String) : String :=
  String.mk ('C' :: ':' ::
    pyReplace (pyReplace (pyUpper (pyStrip ticker.data)) "X:".data []) "C:".data [])

/-- The cleaned form computed by `_split_pair`:
`ticker.replace("C:", "").replace("X:", "").strip().upper()`. -/
def cleanTicker (ticker : List Char) : List Char :=
  pyUpper (pyStrip (pyReplace (pyReplace ticker "C:".data []) "X:".data []))

/-- `_split_pair` (service.py lines 71–90): on the cleaned form, if it
contains a hyphen and splits on `"-"` into exactly two parts, return them;
otherwise if it has exactly 6 characters return the 3/3 split; otherwise
raise `InvalidInputError`. -/
def splitPair (ticker : String) : Except PyExc (String × String) :=
  let clean := cleanTicker ticker.data
  let hyphenated :=
    if '-' ∈ clean then
      match splitOnHyphen clean with
      | [a, b] => some (a, b)
      | _ => none
    else none
  match hyphenated with
  | some (a, b) => .ok (String.mk a, String.mk b)
  | none =>
      if clean.length = 6 then
        .ok (String.mk (clean.take 3), String.mk (clean.drop 3))
      else
        .error (.invalidInput ("Invalid ticker format: '" ++ ticker ++
          "'. Expected 6 chars (EURUSD) or hyphenated (EUR-USD)."))

/-! ## `_get_val` (src/tools/forex/tool.py lines 19–23)

Upstream results are either JSON dicts or SDK objects; `_get_val` branches
on `isinstance(obj, dict)` and reads by key or by attribute. -/

/-- A result value: a dict with string keys, or an object with attributes. -/
inductive PyObj (α : Type) where
  | dict (entries : List (String × α))
  | obj (attrs : List (String × α))

/-- `_get_val(obj, key, default)`: `obj.get(key, default)` when `obj` is a
dict, `getattr(obj, key, default)` otherwise. -/
def getVal {α : Type} (o : PyObj α) (key : String) (default : α) : α :=
  match o with
  | .dict entries => (entries.lookup key).getD default
  | .obj attrs => (attrs.lookup key).getD default

/-- Modelled from the spec's words (§9 design note): "read field F from
result R, trying structured-field access then key-based access, returning a
default if neither is present."  Attribute access on a dict and key access
on an object yield nothing. -/
def getValSpec {α : Type} (o : PyObj α) (key : String) (default : α) : α :=
  let attrAccess :=
    match o with
    | .obj attrs => attrs.lookup key
    | .dict _ => none
  let keyAccess :=
    match o with
    | .dict entries => entries.lookup key
    | .obj _ => none
  (attrAccess.orElse fun _ => keyAccess).getD default

/-! ## `get_historical_quotes` parameter handling
(src/tools/forex/service.py lines 123–144)

`params.setdefault("order", "asc")`, `params.setdefault("sort",
"timestamp")`, `params["limit"] = min(params.get("limit", 100), 1000)`.
The params dict is an association list of string keys to int-or-string
values; `min(str, int)` would raise `TypeError` in Python, modelled as
`none`. -/

/-- A Python dict value as used in the forex params dicts. -/
inductive PVal where
  | int (n : Int)
  | str (s : String)
deriving DecidableEq, Repr

/-- Params dict: association list, first binding wins on lookup. -/
abbrev Params : Type := List (String × PVal)

/-- `d.setdefault(k, v)`: insert only when `k` is absent. -/
def Params.setdefault (p : Params) (k : String) (v : PVal) : Params :=
  if (List.lookup k p).isSome then p else p ++ [(k, v)]

/-- `d[k] = v`: replace the binding of `k`, or append it. -/
def Params.setKey : Params → String → PVal → Params
  | [], k, v => [(k, v)]
  | (k0, v0) :: rest, k, v =>
      if k0 = k then (k, v) :: rest
      else (k0, v0) :: Params.setKey rest k v

/-- `d.get(k)` on the association list. -/
def Params.get (p : Params) (k : String) : Option PVal :=
  List.lookup k p

/-- The parameter transformation `get_historical_quotes` applies before
forwarding `params` to `self.client.list_quotes`: defaults for `order` and
`sort`, and `params["limit"] = min(params.get("limit", 100), 1000)`.
`none` models the `TypeError` Python would raise on `min(str, 1000)`. -/
def prepareHistoricalParams (p : Params) : Option Params :=
  let p1 := p.setdefault "order" (.str "asc")
  let p2 := p1.setdefault "sort" (.str "timestamp")
  match p2.get "limit" with
  | some (.int n) => some (p2.setKey "limit" (.int (min n 1000)))
  | some (.str _) => none
  | none => some (p2.setKey "limit" (.int (min 100 1000)))

/-! ## Concurrency discipline of `_execute_bounded`

`MassiveForexService.__init__` creates
`asyncio.Semaphore(getattr(settings, "FOREX_MAX_CONCURRENCY", 10))`
(service.py line 26; `Settings.FOREX_MAX_CONCURRENCY` defaults to 10 in
`src/common/settings.py`), and every `_execute_bounded` call runs its whole
body inside `async with self._semaphore` (line 39).

We model any number of concurrent invocations as a labelled transition
system.  Each invocation (task) moves through the phases of the source:
not yet started; suspended waiting on the semaphore; holding a slot while
the awaited call runs; body finished (outcome fixed) but slot still held;
exited the `async with` (slot released) with that outcome.  The semaphore
permits an acquire only when fewer than `cap` tasks hold a slot; `async
with` releases on every exit, normal or raised. -/

/-- Default of `getattr(settings, "FOREX_MAX_CONCURRENCY", 10)`. -/
def FOREX_MAX_CONCURRENCY : Nat := 10

/-- Phase of one `_execute_bounded` invocation. -/
inductive Phase where
  | notStarted
  | waiting
  | running
  | completing (o : ExecOutcome Unit)
  | done (o : ExecOutcome Unit)
deriving DecidableEq

/-- Does this phase hold a semaphore slot? -/
def Phase.holdsSlot : Phase → Bool
  | .running => true
  | .completing _ => true
  | _ => false

/-- System state: the phase of each task. -/
abbrev SysState : Type := List Phase

/-- Number of semaphore slots currently held. -/
def holders (s : SysState) : Nat :=
  s.countP Phase.holdsSlot

/-- Initial state: `n` invocations, none started. -/
def initState (n : Nat) : SysState :=
  List.replicate n .notStarted

/-- Events of the transition system. -/
inductive Event where
  /-- task `i` is invoked and reaches `async with self._semaphore` -/
  | start (i : Nat)
  /-- the semaphore grants task `i` a slot -/
  | acquire (i : Nat)
  /-- the awaited call of task `i` finishes as `r`; the `except` chain
      fixes the outcome -/
  | complete (i : Nat) (r : BodyResult Unit)
  /-- task `i` exits the `async with`, releasing its slot -/
  | exitRelease (i : Nat) (o : ExecOutcome Unit)

/-- One step of the system under semaphore capacity `cap`. -/
inductive Step (cap : Nat) : SysState → Event → SysState → Prop where
  | start (s : SysState) (i : Nat)
      (h : s.get? i = some .notStarted) :
      Step cap s (.start i) (s.set i .waiting)
  | acquire (s : SysState) (i : Nat)
      (h : s.get? i = some .waiting) (hcap : holders s < cap) :
      Step cap s (.acquire i) (s.set i .running)
  | complete (s : SysState) (i : Nat) (r : BodyResult Unit)
      (h : s.get? i = some .running) :
      Step cap s (.complete i r) (s.set i (.completing (bodyOutcome r)))
  | exitRelease (s : SysState) (i : Nat) (o : ExecOutcome Unit)
      (h : s.get? i = some (.completing o)) :
      Step cap s (.exitRelease i o) (s.set i (.done o))

/-- A trace: a sequence of events from one state to another. -/
inductive Trace (cap : Nat) : SysState → List Event → SysState → Prop where
  | nil (s : SysState) : Trace cap s [] s
  | cons {s s1 s2 : SysState} {e : Event} {es : List Event}
      (hstep : Step cap s e s1) (htr : Trace cap s1 es s2) :
      Trace cap s (e :: es) s2

/-- Is this event an acquire by task `i`? -/
def evAcq (i : Nat) : Event → Bool
  | .acquire j => j == i
  | _ => false

/-- Is this event a release (exit of the `async with`) by task `i`? -/
def evRel (i : Nat) : Event → Bool
  | .exitRelease j _ => j == i
  | _ => false

/-- Acquire events of task `i` in a trace. -/
def acquireCount (i : Nat) (tr : List Event) : Nat :=
  tr.countP (evAcq i)

/-- Release events (exits of the `async with`) of task `i` in a trace. -/
def releaseCount (i : Nat) (tr : List Event) : Nat :=
  tr.countP (evRel i)

/-- How many acquires task `i` must have performed to be in this phase. -/
def phAcq : Option Phase → Nat
  | some .running => 1
  | some (.completing _) => 1
  | some (.done _) => 1
  | _ => 0

/-- How many releases task `i` must have performed to be in this phase. -/
def phRel : Option Phase → Nat
  | some (.done _) => 1
  | _ => 0

/-! ## Helper lemmas -/

lemma isPrefixOf_append {p a : List Char} (b : List Char)
    (h : p.isPrefixOf a = true) : p.isPrefixOf (a ++ b) = true := by
  rw [List.isPrefixOf_iff_prefix] at *
  exact h.trans (List.prefix_append a b)

lemma startsWithError_append {c : String} (m : String)
    (h : startsWithError c = true) : startsWithError (c ++ m) = true := by
  unfold startsWithError at *
  rw [String.data_append]
  exact isPrefixOf_append m.data h

/-- Every branch of `handle_api_error` returns a string beginning with
`"Error:"`. -/
lemma handleApiError_startsWithError (e : PyExc) (k : Option String) :
    startsWithError (handleApiError e k) = true := by
  cases e <;> try rfl
  case requestsHTTPError status m =>
    cases status with
    | none => rfl
    | some c =>
        simp only [handleApiError]
        split <;> try rfl
        split
        · rfl
        · exact startsWithError_append "."
            (@startsWithError_append "Error: API request failed with status code "
              (toString c) (by decide))

/-- Exceptions that reach the final `except Exception` branch of
`_execute_bounded` (everything but the timeout and urllib3 clauses). -/
def caughtByGenericBranch : PyExc → Bool
  | .timeoutError _ => false
  | .maxRetryError _ => false
  | .urllibHTTPError _ => false
  | _ => true

/-- The spec's notion of a secret: a bare hexadecimal-looking token of
length at least 32 (the shape `sanitize_message`'s regex redacts). -/
def isHexSecret (k : String) : Bool :=
  32 ≤ k.data.length && k.data.all isHexChar

/-- The classification of `_execute_bounded` always yields either an
`MCPError` or a `RuntimeError` wrapping the original text. -/
lemma classifyExc_mcp_or_runtime (e : PyExc) :
    (classifyExc e).isMCPError = true ∨
      ∃ m, classifyExc e = .runtimeError ("Provider Error: " ++ m) := by
  cases e <;> simp only [classifyExc] <;> try (left; rfl)
  all_goals (split_ifs <;> first | (left; rfl) | (right; exact ⟨_, rfl⟩))

lemma containsSub_exists_drop {s k : List Char} (h : containsSub s k = true) :
    ∃ i, k.isPrefixOf (s.drop i) = true := by
  induction s with
  | nil =>
      refine ⟨0, ?_⟩
      simp only [containsSub, List.isEmpty_iff] at h
      subst h; rfl
  | cons c rest ih =>
      simp only [containsSub, Bool.or_eq_true] at h
      cases h with
      | inl h => exact ⟨0, h⟩
      | inr h =>
          obtain ⟨i, hi⟩ := ih h
          exact ⟨i + 1, hi⟩

/-- A string whose hex-character count is below 32 contains no hex secret
as a substring. -/
lemma no_hexSecret_substring {msg : List Char}
    (hcount : msg.countP isHexChar < 32) {k : String}
    (hk : isHexSecret k = true) : containsSub msg k.data = false := by
  by_contra hcon
  rw [Bool.not_eq_false] at hcon
  obtain ⟨i, hi⟩ := containsSub_exists_drop hcon
  rw [List.isPrefixOf_iff_prefix] at hi
  have hsub : k.data.Sublist msg := hi.sublist.trans (List.drop_sublist i msg)
  have hle : k.data.countP isHexChar ≤ msg.countP isHexChar := hsub.countP_le _
  unfold isHexSecret at hk
  rw [Bool.and_eq_true] at hk
  have hall : k.data.countP isHexChar = k.data.length :=
    List.countP_eq_length.mpr (by simpa [List.all_eq_true] using hk.2)
  have h32 : 32 ≤ k.data.length := of_decide_eq_true hk.1
  omega

/-! ## Claims -/

/-- C1 counterexample: an exception whose text matches none of the
network / 401 / 429 / 404 cases makes `_execute_bounded` raise a
`RuntimeError`, which is not an `MCPError` — an unclassified exception
propagates to the caller. -/
theorem claim_C1_counterexample :
    bodyOutcome (BodyResult.excRaised (α := Unit) (.otherExc "boom")) =
      .raised (.runtimeError "Provider Error: boom") ∧
    PyExc.isMCPError (.runtimeError "Provider Error: boom") = false := by
  exact ⟨rfl, rfl⟩

/-- C1 (amended): every exit of `_execute_bounded` is either the value
returned by `f`, a raised `MCPError` from the domain taxonomy, or — for an
exception matching none of the timeout / network / 401 / 429 / 404 cases —
a raised `RuntimeError` whose message is `"Provider Error: "` followed by
the original exception text. -/
theorem claim_C1_exits_classified {α : Type} (r : BodyResult α) :
    (∃ v, r = .returned v ∧ bodyOutcome r = .success v) ∨
    (∃ e, bodyOutcome r = .raised e ∧
      (e.isMCPError = true ∨
        ∃ m, e = .runtimeError ("Provider Error: " ++ m))) := by
  cases r with
  | returned v => exact .inl ⟨v, rfl, rfl⟩
  | timedOut => exact .inr ⟨_, rfl, .inl rfl⟩
  | excRaised e => exact .inr ⟨_, rfl, classifyExc_mcp_or_runtime e⟩

/-- C6: `_split_pair` parses `"EURUSD"` and `"EUR-USD"` to the pair
(`"EUR"`, `"USD"`), and raises `InvalidInputError` (never a silent default)
on `"EU"` and `"EURUSDX"`. -/
theorem claim_C6_split_pair_round_trip :
    splitPair "EURUSD" = .ok ("EUR", "USD") ∧
    splitPair "EUR-USD" = .ok ("EUR", "USD") ∧
    splitPair "EU" = .error (.invalidInput
      "Invalid ticker format: 'EU'. Expected 6 chars (EURUSD) or hyphenated (EUR-USD).") ∧
    splitPair "EURUSDX" = .error (.invalidInput
      "Invalid ticker format: 'EURUSDX'. Expected 6 chars (EURUSD) or hyphenated (EUR-USD).") := by
  exact ⟨rfl, rfl, rfl, rfl⟩

/-- C8: `_get_val` coincides, for every result value, field name and
default, with the spec's accessor capability "read field F from result R,
trying structured-field access then key-based access, returning a default
if neither is present". -/
theorem claim_C8_get_val_refines_spec {α : Type} (o : PyObj α) (key : String)
    (d : α) : getVal o key d = getValSpec o key d := by
  cases o with
  | dict entries =>
      simp [getVal, getValSpec, Option.orElse]
  | obj attrs =>
      cases h : attrs.lookup key <;>
        simp [getVal, getValSpec, Option.orElse, h]

/-- C9 (implicit): whenever the cleaned ticker contains a hyphen and splits
on `"-"` into exactly two parts, `_split_pair` returns those parts with no
length or content check on either part. -/
theorem claim_C9_hyphen_parts_unchecked (t : String) (a b : List Char)
    (hmem : '-' ∈ cleanTicker t.data)
    (hsplit : splitOnHyphen (cleanTicker t.data) = [a, b]) :
    splitPair t = .ok (String.mk a, String.mk b) := by
  unfold splitPair
  dsimp only
  rw [if_pos hmem, hsplit]

/-- C9 witness: `_split_pair("E-U")` returns `("E", "U")` and
`_split_pair("ABC-")` returns `("ABC", "")` rather than raising. -/
theorem claim_C9_witness :
    splitPair "E-U" = .ok ("E", "U") ∧
    splitPair "ABC-" = .ok ("ABC", "") := by
  constructor
  · exact claim_C9_hyphen_parts_unchecked "E-U" "E".data "U".data
      (by decide) (by decide)
  · exact claim_C9_hyphen_parts_unchecked "ABC-" "ABC".data "".data
      (by decide) (by decide)

/-- C2 (code bug): `handle_api_error` computes a sanitized message but
returns the raw `str(error)` in the `DataNotFound` / `InvalidInputError` /
generic-`MCPError` branches, so a secret occurring in the exception text
reaches the returned string — even though `sanitize_message` on the same
input would have redacted it. -/
theorem claim_C2_secret_leak :
    isHexSecret "deadbeefdeadbeefdeadbeefdeadbeefdeadbeef" = true ∧
    strContains
      (handleApiError
        (.dataNotFound
          "auth failed for key deadbeefdeadbeefdeadbeefdeadbeefdeadbeef")
        (some "deadbeefdeadbeefdeadbeefdeadbeefdeadbeef"))
      "deadbeefdeadbeefdeadbeefdeadbeefdeadbeef" = true ∧
    strContains
      (sanitizeMessage
        "auth failed for key deadbeefdeadbeefdeadbeefdeadbeefdeadbeef"
        (some "deadbeefdeadbeefdeadbeefdeadbeefdeadbeef"))
      "deadbeefdeadbeefdeadbeefdeadbeefdeadbeef" = false := by
  exact ⟨rfl, rfl, rfl⟩

/-- C7: for every exception and optional API key, `handle_api_error`
returns a string beginning with the literal marker `"Error:"`, and hence a
failing forex tool call (the `except` arm of the tool wrapper, including
the special wrapper of `get_forex_historical_quotes`) returns a plain
`"Error:"`-prefixed string instead of propagating the exception. -/
theorem claim_C7_error_prefix (e : PyExc) (k : Option String) :
    startsWithError (handleApiError e k) = true ∧
    startsWithError (runTool k (.exc e)) = true ∧
    startsWithError (histQuotesErrorResult e k) = true := by
  refine ⟨handleApiError_startsWithError e k,
    handleApiError_startsWithError e k, ?_⟩
  unfold histQuotesErrorResult
  split
  · rfl
  · exact handleApiError_startsWithError e k

/-- C5 counterexample: an unclassified exception is re-raised as a
`RuntimeError` whose message embeds the original exception text verbatim —
including a 32+-character hex secret — so the "Generic error with a
sanitized message" clause fails: sanitizing the raised message would
change it. -/
theorem claim_C5_counterexample :
    classifyExc
        (.otherExc "secret deadbeefdeadbeefdeadbeefdeadbeefdeadbeef cause") =
      .runtimeError
        "Provider Error: secret deadbeefdeadbeefdeadbeefdeadbeefdeadbeef cause" ∧
    strContains
      "Provider Error: secret deadbeefdeadbeefdeadbeefdeadbeefdeadbeef cause"
      "deadbeefdeadbeefdeadbeefdeadbeefdeadbeef" = true ∧
    sanitizeMessage
        "Provider Error: secret deadbeefdeadbeefdeadbeefdeadbeefdeadbeef cause"
        none ≠
      "Provider Error: secret deadbeefdeadbeefdeadbeefdeadbeefdeadbeef cause" := by
  refine ⟨rfl, rfl, ?_⟩
  decide

/-- C5 (amended): `_execute_bounded` classifies failures as: timeout →
`ProviderTimeoutError`; network (`MaxRetryError` / urllib3 `HTTPError`) →
`ProviderConnectionError`; otherwise, in order, a `"401"` in `str(e)` →
`ProviderConnectionError` with the fixed configuration-hint message (which
contains no hex secret); else `"429"` → `RateLimitExceeded`, whose final
user message contains `"rate limit"` case-insensitively; else `"404"` →
`DataNotFound`; else a `RuntimeError` whose message is `"Provider Error: "`
plus the original exception text verbatim (not sanitized). -/
theorem claim_C5_classification (e : PyExc) (k : Option String)
    (hgen : caughtByGenericBranch e = true) :
    (bodyOutcome (α := Unit) .timedOut =
      .raised (.providerTimeout "External data provider timed out.")) ∧
    (∀ m, classifyExc (.maxRetryError m) =
      .providerConnection "Failed to connect to Forex Data Provider.") ∧
    (∀ m, classifyExc (.urllibHTTPError m) =
      .providerConnection "Failed to connect to Forex Data Provider.") ∧
    (strContains e.pyStr "401" = true →
      classifyExc e =
        .providerConnection "Internal Configuration Error (API Key).") ∧
    (∀ sec : String, isHexSecret sec = true →
      strContains "Internal Configuration Error (API Key)." sec = false) ∧
    (strContains e.pyStr "401" = false → strContains e.pyStr "429" = true →
      classifyExc e = .rateLimitExceeded "Forex data rate limit reached.") ∧
    (strContains
      (String.mk (pyLower
        (handleApiError
          (.rateLimitExceeded "Forex data rate limit reached.") k).data))
      "rate limit" = true) ∧
    (strContains e.pyStr "401" = false → strContains e.pyStr "429" = false →
      strContains e.pyStr "404" = true →
      classifyExc e = .dataNotFound "Resource not found.") ∧
    (strContains e.pyStr "401" = false → strContains e.pyStr "429" = false →
      strContains e.pyStr "404" = false →
      classifyExc e = .runtimeError ("Provider Error: " ++ e.pyStr)) := by
  refine ⟨rfl, fun m => rfl, fun m => rfl, ?_, ?_, ?_, rfl, ?_, ?_⟩
  · intro h401
    cases e <;> simp_all [caughtByGenericBranch, classifyExc, PyExc.pyStr]
  · intro sec hsec
    exact no_hexSecret_substring (by decide) hsec
  · intro h401 h429
    cases e <;> simp_all [caughtByGenericBranch, classifyExc, PyExc.pyStr]
  · intro h401 h429 h404
    cases e <;> simp_all [caughtByGenericBranch, classifyExc, PyExc.pyStr]
  · intro h401 h429 h404
    cases e <;> simp_all [caughtByGenericBranch, classifyExc, PyExc.pyStr]

/-- C5 witness: concrete exceptions exercising the 429, 401 and 404
branches of the classification. -/
theorem claim_C5_witness :
    classifyExc (.otherExc "got HTTP 429") =
      .rateLimitExceeded "Forex data rate limit reached." ∧
    classifyExc (.otherExc "got HTTP 401") =
      .providerConnection "Internal Configuration Error (API Key)." ∧
    classifyExc (.otherExc "got HTTP 404") =
      .dataNotFound "Resource not found." := by
  refine ⟨?_, ?_, ?_⟩
  · exact (claim_C5_classification (.otherExc "got HTTP 429") none
      (by decide)).2.2.2.2.2.1 (by decide) (by decide)
  · exact (claim_C5_classification (.otherExc "got HTTP 401") none
      (by decide)).2.2.2.1 (by decide)
  · exact (claim_C5_classification (.otherExc "got HTTP 404") none
      (by decide)).2.2.2.2.2.2.2.1 (by decide) (by decide) (by decide)

/-! ## Association-list lemmas for the params dict -/

lemma lookup_append_single_self {k : String} (v : PVal) :
    ∀ (p : Params), List.lookup k p = none →
      List.lookup k (p ++ [(k, v)]) = some v := by
  intro p
  induction p with
  | nil => intro _; simp
  | cons hd tl ih =>
      obtain ⟨k0, v0⟩ := hd
      intro h
      simp only [List.cons_append, List.lookup] at h ⊢
      cases hbeq : (k == k0) with
      | true => rw [hbeq] at h; exact absurd h (by simp)
      | false => rw [hbeq] at h; exact ih h

lemma lookup_append_single_ne {k k' : String} (hne : k' ≠ k) (v : PVal) :
    ∀ (p : Params), List.lookup k' (p ++ [(k, v)]) = List.lookup k' p := by
  intro p
  have hbeq : (k' == k) = false := beq_eq_false_iff_ne.mpr hne
  induction p with
  | nil => simp [List.lookup, hbeq]
  | cons hd tl ih =>
      obtain ⟨k0, v0⟩ := hd
      simp only [List.cons_append, List.lookup]
      cases k' == k0 with
      | true => rfl
      | false => exact ih

lemma get_setdefault_of_some {p : Params} {k : String} {v0 : PVal} (v : PVal)
    (h : p.get k = some v0) : (p.setdefault k v).get k = some v0 := by
  unfold Params.setdefault Params.get at *
  rw [h]
  simpa using h

lemma get_setdefault_of_none {p : Params} {k : String} (v : PVal)
    (h : p.get k = none) : (p.setdefault k v).get k = some v := by
  unfold Params.setdefault Params.get at *
  rw [h]
  simpa using lookup_append_single_self v p h

lemma get_setdefault_ne {p : Params} {k k' : String} (hne : k' ≠ k)
    (v : PVal) : (p.setdefault k v).get k' = p.get k' := by
  unfold Params.setdefault Params.get
  split
  · rfl
  · exact lookup_append_single_ne hne v p

lemma get_setKey_self (p : Params) (k : String) (v : PVal) :
    (p.setKey k v).get k = some v := by
  induction p with
  | nil => simp [Params.setKey, Params.get, List.lookup]
  | cons hd tl ih =>
      obtain ⟨k0, v0⟩ := hd
      by_cases h : k0 = k
      · subst h
        simp [Params.setKey, Params.get, List.lookup]
      · have hbeq : (k == k0) = false :=
          beq_eq_false_iff_ne.mpr fun hh => h hh.symm
        simp only [Params.setKey, if_neg h]
        unfold Params.get at ih ⊢
        simp only [List.lookup, hbeq]
        exact ih

lemma get_setKey_ne (p : Params) {k k' : String} (hne : k' ≠ k) (v : PVal) :
    (p.setKey k v).get k' = p.get k' := by
  induction p with
  | nil =>
      have hbeq : (k' == k) = false := beq_eq_false_iff_ne.mpr hne
      simp [Params.setKey, Params.get, List.lookup, hbeq]
  | cons hd tl ih =>
      obtain ⟨k0, v0⟩ := hd
      by_cases h : k0 = k
      · subst h
        have hbeq : (k' == k0) = false := beq_eq_false_iff_ne.mpr hne
        simp [Params.setKey, Params.get, List.lookup, hbeq]
      · simp only [Params.setKey, if_neg h]
        unfold Params.get at ih ⊢
        simp only [List.lookup]
        cases k' == k0 with
        | true => rfl
        | false => exact ih

/-- C10 (implicit): `get_historical_quotes` forwards a `limit` of
`min(params.get("limit", 100), 1000)` — never more than 1000 — and sets
`order` to `"asc"` / `sort` to `"timestamp"` only when absent, leaving
caller-supplied values unchanged. -/
theorem claim_C10_historical_params (p q : Params)
    (h : prepareHistoricalParams p = some q) :
    ((∀ n : Int, p.get "limit" = some (.int n) →
        q.get "limit" = some (.int (min n 1000))) ∧
     (p.get "limit" = none → q.get "limit" = some (.int 100)) ∧
     (∀ n : Int, q.get "limit" = some (.int n) → n ≤ 1000)) ∧
    ((p.get "order" = none → q.get "order" = some (.str "asc")) ∧
     (∀ v, p.get "order" = some v → q.get "order" = some v) ∧
     (p.get "sort" = none → q.get "sort" = some (.str "timestamp")) ∧
     (∀ v, p.get "sort" = some v → q.get "sort" = some v)) := by
  unfold prepareHistoricalParams at h
  dsimp only at h
  set p1 := p.setdefault "order" (.str "asc") with hp1
  set p2 := p1.setdefault "sort" (.str "timestamp") with hp2
  have hlim2 : p2.get "limit" = p.get "limit" := by
    rw [hp2, get_setdefault_ne (by decide), hp1, get_setdefault_ne (by decide)]
  have horder2 : p2.get "order" = p1.get "order" := by
    rw [hp2, get_setdefault_ne (by decide)]
  cases hl : p2.get "limit" with
  | none =>
      rw [hl] at h
      injection h with h
      subst h
      refine ⟨⟨?_, ?_, ?_⟩, ?_, ?_, ?_, ?_⟩
      · intro n hn
        rw [← hlim2, hl] at hn
        exact absurd hn (by simp)
      · intro _
        simpa using get_setKey_self p2 "limit" (.int (min 100 1000))
      · intro n hn
        rw [get_setKey_self] at hn
        injection hn with hn
        injection hn with hn
        subst hn
        norm_num
      · intro hord
        rw [get_setKey_ne p2 (by decide), horder2, hp1,
          get_setdefault_of_none _ hord]
      · intro v hv
        rw [get_setKey_ne p2 (by decide), horder2, hp1,
          get_setdefault_of_some _ hv]
      · intro hsort
        have : p1.get "sort" = none := by
          rw [hp1, get_setdefault_ne (by decide)]; exact hsort
        rw [get_setKey_ne p2 (by decide), hp2, get_setdefault_of_none _ this]
      · intro v hv
        have : p1.get "sort" = some v := by
          rw [hp1, get_setdefault_ne (by decide)]; exact hv
        rw [get_setKey_ne p2 (by decide), hp2, get_setdefault_of_some _ this]
  | some pv =>
      cases pv with
      | str s => rw [hl] at h; exact absurd h (by simp)
      | int n0 =>
          rw [hl] at h
          injection h with h
          subst h
          refine ⟨⟨?_, ?_, ?_⟩, ?_, ?_, ?_, ?_⟩
          · intro n hn
            rw [← hlim2, hl] at hn
            injection hn with hn
            injection hn with hn
            subst hn
            exact get_setKey_self p2 "limit" _
          · intro hn
            rw [← hlim2, hl] at hn
            exact absurd hn (by simp)
          · intro n hn
            rw [get_setKey_self] at hn
            injection hn with hn
            injection hn with hn
            subst hn
            exact min_le_right _ _
          · intro hord
            rw [get_setKey_ne p2 (by decide), horder2, hp1,
              get_setdefault_of_none _ hord]
          · intro v hv
            rw [get_setKey_ne p2 (by decide), horder2, hp1,
              get_setdefault_of_some _ hv]
          · intro hsort
            have : p1.get "sort" = none := by
              rw [hp1, get_setdefault_ne (by decide)]; exact hsort
            rw [get_setKey_ne p2 (by decide), hp2,
              get_setdefault_of_none _ this]
          · intro v hv
            have : p1.get "sort" = some v := by
              rw [hp1, get_setdefault_ne (by decide)]; exact hv
            rw [get_setKey_ne p2 (by decide), hp2,
              get_setdefault_of_some _ this]

/-- C10 witness: a caller-supplied `limit` of 5000 and `order` of `"desc"`
are forwarded as `limit = 1000` and `order = "desc"`, with `sort`
defaulted to `"timestamp"`. -/
theorem claim_C10_witness :
    Params.get [("limit", PVal.int 1000), ("order", PVal.str "desc"),
      ("sort", PVal.str "timestamp")] "limit" = some (.int 1000) ∧
    Params.get [("limit", PVal.int 1000), ("order", PVal.str "desc"),
      ("sort", PVal.str "timestamp")] "order" = some (.str "desc") ∧
    Params.get [("limit", PVal.int 1000), ("order", PVal.str "desc"),
      ("sort", PVal.str "timestamp")] "sort" = some (.str "timestamp") := by
  have h := claim_C10_historical_params
    [("limit", PVal.int 5000), ("order", PVal.str "desc")]
    [("limit", PVal.int 1000), ("order", PVal.str "desc"),
      ("sort", PVal.str "timestamp")]
    (by rfl)
  refine ⟨?_, h.2.2.1 (.str "desc") rfl, ?_⟩
  · have hlim := h.1.1 5000 rfl
    norm_num at hlim
    exact hlim
  · exact h.2.2.2.1 rfl

/-! ## Lemmas about the transition system -/

lemma countP_set_phase {p : Phase → Bool} {s : List Phase} {i : Nat}
    {y : Phase} (h : s.get? i = some y) (x : Phase) :
    (s.set i x).countP p + (if p y then 1 else 0) =
      s.countP p + (if p x then 1 else 0) := by
  induction s generalizing i with
  | nil => simp at h
  | cons a t ih =>
      cases i with
      | zero =>
          injection h with h
          subst h
          simp only [List.set, List.countP_cons]
          omega
      | succ j =>
          have hj : t.get? j = some y := h
          have := ih hj
          simp only [List.set, List.countP_cons]
          omega

lemma get?_set_of_get? {s : List Phase} {i : Nat} {y : Phase}
    (h : s.get? i = some y) (x : Phase) : (s.set i x).get? i = some x := by
  induction s generalizing i with
  | nil => simp at h
  | cons a t ih =>
      cases i with
      | zero => rfl
      | succ j => exact ih h

lemma get?_set_ne_phase {s : List Phase} {i j : Nat} (hne : i ≠ j)
    (x : Phase) : (s.set i x).get? j = s.get? j := by
  induction s generalizing i j with
  | nil => rfl
  | cons a t ih =>
      cases i with
      | zero =>
          cases j with
          | zero => exact absurd rfl hne
          | succ j2 => rfl
      | succ i2 =>
          cases j with
          | zero => rfl
          | succ j2 => exact ih fun hh => hne (congrArg Nat.succ hh)

/-- Every step keeps the number of held slots at or below the capacity:
`start` and `complete` leave it unchanged, `acquire` is guarded by
`holders s < cap`, and `exitRelease` decreases it. -/
lemma step_holders_le {cap : Nat} {s s' : SysState} {e : Event}
    (hstep : Step cap s e s') (hle : holders s ≤ cap) : holders s' ≤ cap := by
  cases hstep with
  | start i h =>
      have hc := countP_set_phase (p := Phase.holdsSlot) h Phase.waiting
      unfold holders at *
      simp [Phase.holdsSlot] at hc
      omega
  | acquire i h hcap =>
      have hc := countP_set_phase (p := Phase.holdsSlot) h Phase.running
      unfold holders at *
      simp [Phase.holdsSlot] at hc
      omega
  | complete i r h =>
      have hc := countP_set_phase (p := Phase.holdsSlot) h
        (Phase.completing (bodyOutcome r))
      unfold holders at *
      simp [Phase.holdsSlot] at hc
      omega
  | exitRelease i o h =>
      have hc := countP_set_phase (p := Phase.holdsSlot) h (Phase.done o)
      unfold holders at *
      simp [Phase.holdsSlot] at hc
      omega

lemma trace_holders_le {cap : Nat} {s0 s1 : SysState} {tr : List Event}
    (htr : Trace cap s0 tr s1) (h0 : holders s0 ≤ cap) : holders s1 ≤ cap := by
  induction htr with
  | nil _ => exact h0
  | cons hstep htr ih => exact ih (step_holders_le hstep h0)

lemma holders_initState (n : Nat) : holders (initState n) = 0 := by
  unfold holders initState
  induction n with
  | zero => rfl
  | succ m ih => simp [List.replicate, List.countP_cons, Phase.holdsSlot, ih]

/-- Per-step accounting: the phase-implied acquire/release counters of each
task advance exactly by the step's own event. -/
lemma step_counts {cap : Nat} {s s' : SysState} {e : Event}
    (hstep : Step cap s e s') (i : Nat) :
    phAcq (s'.get? i) = phAcq (s.get? i) + (if evAcq i e then 1 else 0) ∧
    phRel (s'.get? i) = phRel (s.get? i) + (if evRel i e then 1 else 0) := by
  cases hstep with
  | start j h =>
      by_cases hij : j = i
      · subst hij
        rw [get?_set_of_get? h, h]
        simp [evAcq, evRel, phAcq, phRel]
      · rw [get?_set_ne_phase hij]
        simp [evAcq, evRel]
  | acquire j h hcap =>
      by_cases hij : j = i
      · subst hij
        rw [get?_set_of_get? h, h]
        simp [evAcq, evRel, phAcq, phRel]
      · rw [get?_set_ne_phase hij]
        have : (j == i) = false := beq_eq_false_iff_ne.mpr hij
        simp [evAcq, evRel, this]
  | complete j r h =>
      by_cases hij : j = i
      · subst hij
        rw [get?_set_of_get? h, h]
        simp [evAcq, evRel, phAcq, phRel]
      · rw [get?_set_ne_phase hij]
        simp [evAcq, evRel]
  | exitRelease j o h =>
      by_cases hij : j = i
      · subst hij
        rw [get?_set_of_get? h, h]
        simp [evAcq, evRel, phAcq, phRel]
      · rw [get?_set_ne_phase hij]
        have : (j == i) = false := beq_eq_false_iff_ne.mpr hij
        simp [evAcq, evRel, this]

/-- Trace accounting: over any trace, each task's acquire/release event
counts equal the difference of the phase-implied counters. -/
lemma trace_counts {cap : Nat} {s0 s1 : SysState} {tr : List Event}
    (htr : Trace cap s0 tr s1) (i : Nat) :
    phAcq (s1.get? i) = phAcq (s0.get? i) + acquireCount i tr ∧
    phRel (s1.get? i) = phRel (s0.get? i) + releaseCount i tr := by
  induction htr with
  | nil _ => simp [acquireCount, releaseCount]
  | cons hstep htr ih =>
      obtain ⟨ha1, hr1⟩ := step_counts hstep i
      obtain ⟨ha2, hr2⟩ := ih
      unfold acquireCount releaseCount at *
      simp only [List.countP_cons] at *
      constructor <;> omega

lemma phAcq_initState (n i : Nat) :
    phAcq ((initState n).get? i) = 0 ∧ phRel ((initState n).get? i) = 0 := by
  unfold initState
  rcases h : (List.replicate n Phase.notStarted).get? i with _ | ph
  · exact ⟨rfl, rfl⟩
  · have hmem := List.get?_mem h
    have : ph = Phase.notStarted := List.eq_of_mem_replicate hmem
    subst this
    exact ⟨rfl, rfl⟩

lemma phAcq_le_one (op : Option Phase) : phAcq op ≤ 1 := by
  rcases op with _ | ph
  · exact Nat.zero_le 1
  · cases ph <;> simp [phAcq]

lemma phRel_le_phAcq (op : Option Phase) : phRel op ≤ phAcq op := by
  rcases op with _ | ph
  · simp [phRel, phAcq]
  · cases ph <;> simp [phRel, phAcq]

/-- C3: in every reachable state of any number of concurrent
`_execute_bounded` invocations, the number of simultaneously held
semaphore slots (dispatched, not yet released) never exceeds the capacity,
and when the capacity is fully in use no waiting task can acquire — it
stays suspended until a slot frees. -/
theorem claim_C3_concurrency_cap (cap n : Nat) (tr : List Event)
    (s : SysState) (htr : Trace cap (initState n) tr s) :
    holders s ≤ cap ∧
    (holders s = cap → ∀ (i : Nat) (s' : SysState),
      ¬ Step cap s (.acquire i) s') := by
  refine ⟨trace_holders_le htr (by simp [holders_initState]), ?_⟩
  intro hfull i s' hstep
  cases hstep with
  | acquire _ h hcap => omega

/-- C3 witness: a concrete two-task trace under the default capacity 10,
after one task has started and acquired. -/
theorem claim_C3_witness :
    holders [Phase.running, Phase.notStarted] ≤ FOREX_MAX_CONCURRENCY := by
  have htr : Trace FOREX_MAX_CONCURRENCY (initState 2)
      [.start 0, .acquire 0] [Phase.running, Phase.notStarted] :=
    Trace.cons (Step.start (initState 2) 0 rfl)
      (Trace.cons (Step.acquire ((initState 2).set 0 .waiting) 0 rfl
        (by decide))
        (Trace.nil _))
  exact (claim_C3_concurrency_cap FOREX_MAX_CONCURRENCY 2 _ _ htr).1

/-- C4: over any trace, each `_execute_bounded` invocation releases its
semaphore slot at most once, never more often than it acquired, and —
whatever the outcome it exits with (successful return, timeout, or any
raised exception) — a finished invocation has acquired and released
exactly once. -/
theorem claim_C4_release_exactly_once (cap n : Nat) (tr : List Event)
    (s : SysState) (htr : Trace cap (initState n) tr s) (i : Nat) :
    releaseCount i tr ≤ 1 ∧
    releaseCount i tr ≤ acquireCount i tr ∧
    (∀ o, s.get? i = some (.done o) →
      acquireCount i tr = 1 ∧ releaseCount i tr = 1) := by
  obtain ⟨ha, hr⟩ := trace_counts htr i
  obtain ⟨h0a, h0r⟩ := phAcq_initState n i
  rw [h0a] at ha
  rw [h0r] at hr
  have hb := phAcq_le_one (s.get? i)
  have hba := phRel_le_phAcq (s.get? i)
  refine ⟨by omega, by omega, ?_⟩
  intro o ho
  rw [ho] at ha hr
  simp only [phAcq, phRel] at ha hr
  omega

/-- C4 witness: a concrete one-task trace in which the underlying call
raises an unclassified exception; the task acquires once and releases
exactly once. -/
theorem claim_C4_witness :
    acquireCount 0 [Event.start 0, .acquire 0,
      .complete 0 (.excRaised (.otherExc "x")),
      .exitRelease 0 (.raised (.runtimeError "Provider Error: x"))] = 1 ∧
    releaseCount 0 [Event.start 0, .acquire 0,
      .complete 0 (.excRaised (.otherExc "x")),
      .exitRelease 0 (.raised (.runtimeError "Provider Error: x"))] = 1 := by
  have htr : Trace FOREX_MAX_CONCURRENCY (initState 1)
      [.start 0, .acquire 0, .complete 0 (.excRaised (.otherExc "x")),
        .exitRelease 0 (.raised (.runtimeError "Provider Error: x"))]
      [Phase.done (.raised (.runtimeError "Provider Error: x"))] :=
    Trace.cons (Step.start (initState 1) 0 rfl)
      (Trace.cons (Step.acquire _ 0 rfl (by decide))
        (Trace.cons (Step.complete _ 0 (.excRaised (.otherExc "x")) rfl)
          (Trace.cons (Step.exitRelease _ 0 _ rfl)
            (Trace.nil _))))
  have h := claim_C4_release_exactly_once FOREX_MAX_CONCURRENCY 1 _ _ htr 0
  exact h.2.2 _ rfl

end FinMCP

